import Mathlib

/-!
Shallow embedding of the contact-form Lambda handler
(`src/lambda/contact-form/index.mjs`) of the `fredjean-net-cdk` repository.

Strings are modelled as Lean `String`s (lists of characters); JavaScript
`String.prototype.length` (UTF-16 units) is modelled by character count,
which agrees on all inputs used here.  JavaScript numbers used for
classification confidences and thresholds are modelled by `Rat`; the only
operation performed on them is an order comparison, which `Rat` mirrors.
External calls (body decoding, the Bedrock model invocation, the DynamoDB
write, the SES send) are modelled by `Except` oracles supplied to the
handler, exactly as the source injects test clients.
-/

namespace ContactForm

/-- The JavaScript whitespace class `\s` restricted to the characters that
occur in this development (space, tab, newline, carriage return, vertical
tab, form feed); also the class removed by `String.prototype.trim`. -/
def isWs (c : Char) : Bool :=
  c = ' ' || c = '\t' || c = '\n' || c = '\r' || c = Char.ofNat 11 || c = Char.ofNat 12

/-- Model of the Unicode letter class `\p` + `L` used by the `name` and
`message` patterns: ASCII letters plus the Latin-1 Supplement / Latin
Extended letters (excluding `×` and `÷`). -/
def isUnicodeLetter (c : Char) : Bool :=
  c.isAlpha || (0xC0 ≤ c.toNat && c.toNat ≤ 0x24F && c.toNat ≠ 0xD7 && c.toNat ≠ 0xF7)

/-- Model of the Unicode punctuation class (ASCII part): `! " # % & ' ( ) * ,
- . / : ; ? @ [ \ ] _` and the two curly braces. -/
def isPunct (c : Char) : Bool :=
  let n := c.toNat
  (0x21 ≤ n && n ≤ 0x23) || (0x25 ≤ n && n ≤ 0x2A) || (0x2C ≤ n && n ≤ 0x2F) ||
  n = 0x3A || n = 0x3B || n = 0x3F || n = 0x40 || (0x5B ≤ n && n ≤ 0x5D) ||
  n = 0x5F || n = 0x7B || n = 0x7D

/-- `l.trim` on character lists: drop leading and trailing whitespace. -/
def trimAux (l : List Char) : List Char :=
  ((l.dropWhile isWs).reverse.dropWhile isWs).reverse

/-- JavaScript `String.prototype.trim`. -/
def trim (s : String) : String := ⟨trimAux s.data⟩

/-- `message.replace(/\s+/g, ' ')`: the boolean state records whether the
previous character belonged to a whitespace run already replaced by `' '`. -/
def collapseWsAux : Bool → List Char → List Char
  | _, [] => []
  | prevWs, c :: rest =>
    if isWs c then
      if prevWs then collapseWsAux true rest
      else ' ' :: collapseWsAux true rest
    else c :: collapseWsAux false rest

/-- `message.replace(/\s+/g, ' ')` on a character list. -/
def collapseWs (l : List Char) : List Char := collapseWsAux false l

/-- JavaScript `s.split(sep)` for a single-character separator: splitting the
empty string gives `[[]]`, adjacent separators give empty fields. -/
def splitOnChar (sep : Char) : List Char → List (List Char)
  | [] => [[]]
  | c :: rest =>
    if c = sep then [] :: splitOnChar sep rest
    else
      match splitOnChar sep rest with
      | [] => [[c]]
      | w :: ws => (c :: w) :: ws

/-- `words.join(' ')` on character lists. -/
def joinSpace : List (List Char) → List Char
  | [] => []
  | [w] => w
  | w :: ws => w ++ ' ' :: joinSpace ws

/-- The email pattern of the source, the regular expression
`^[^\s@]+@[^\s@]+\.[^\s@]+$`: exactly one `@`, a nonempty whitespace-free
local part, and a whitespace-free domain containing an internal dot. -/
def emailPattern (s : String) : Bool :=
  match splitOnChar '@' s.data with
  | [localPart, domain] =>
    !localPart.isEmpty && localPart.all (fun c => !isWs c) &&
    !domain.isEmpty && domain.all (fun c => !isWs c) &&
    ((domain.drop 1).dropLast.contains '.')
  | _ => false

/-- The name pattern `^[\p` + `L\s'-]+$`: Unicode letters, whitespace,
hyphens, apostrophes; nonempty. -/
def namePattern (s : String) : Bool :=
  !s.isEmpty && s.data.all (fun c => isUnicodeLetter c || isWs c || c = Char.ofNat 39 || c = '-')

/-- The phone pattern `^[\d\s+()-]+$`: digits, whitespace and `+ ( ) -`;
nonempty. -/
def phonePattern (s : String) : Bool :=
  !s.isEmpty && s.data.all (fun c => c.isDigit || isWs c || c = '+' || c = '(' || c = ')' || c = '-')

/-- The message pattern: Unicode letters, numbers, punctuation, space
separators, `\n` and `\r`; nonempty. -/
def messagePattern (s : String) : Bool :=
  !s.isEmpty && s.data.all
    (fun c => isUnicodeLetter c || c.isDigit || isPunct c || c = ' ' || c = '\n' || c = '\r')

/-- The spam-confidence threshold default `0.8`, as the reduced rational
`4/5` (built from raw numerator and denominator so that it evaluates by
kernel reduction). -/
def defaultThreshold : Rat := Rat.mk' 4 5 (by norm_num) (by norm_num)

/-- The runtime configuration `CONFIG` of the source, with the source's
fallback defaults.  The spam-detection threshold `0.8` is the rational
`4/5`. -/
structure Config where
  allowedOrigin : String := "*"
  maxMessageLength : Nat := 2048
  maxNameLength : Nat := 100
  maxPhoneLength : Nat := 20
  subjectWordCount : Nat := 8
  spamDetectionEnabled : Bool := false
  spamConfidenceThreshold : Rat := defaultThreshold
deriving Repr, DecidableEq

/-- The default configuration (all environment variables absent, except that
claims about the spam path set `spamDetectionEnabled`). -/
def CONFIG : Config := {}

/-- One entry of the `VALIDATION` table: a maximum length and a pattern. -/
structure Schema where
  maxLength : Nat
  pattern : String → Bool

/-- `VALIDATION.email`. -/
def emailSchema : Schema := ⟨255, emailPattern⟩

/-- `VALIDATION.name` (its max length comes from the configuration). -/
def nameSchema (cfg : Config) : Schema := ⟨cfg.maxNameLength, namePattern⟩

/-- `VALIDATION.phone`. -/
def phoneSchema (cfg : Config) : Schema := ⟨cfg.maxPhoneLength, phonePattern⟩

/-- `VALIDATION.message`. -/
def messageSchema (cfg : Config) : Schema := ⟨cfg.maxMessageLength, messagePattern⟩

/-- The `ValidationError` class: a field name and a message. -/
structure ValidationError where
  field : String
  message : String
deriving Repr, DecidableEq

/-- `validateField(value, fieldName, schema)`.  A missing or non-string
value is `none`; the separate `s = ""` test reflects that the empty string
is falsy in JavaScript, so `!value` also fires on `""`. -/
def validateField (value : Option String) (fieldName : String) (schema : Schema) :
    Except ValidationError String :=
  match value with
  | none => .error ⟨fieldName, fieldName ++ " is required"⟩
  | some s =>
    if s = "" then .error ⟨fieldName, fieldName ++ " is required"⟩
    else
      let trimmed := trim s
      if trimmed.length = 0 then
        .error ⟨fieldName, fieldName ++ " cannot be empty"⟩
      else if schema.maxLength < trimmed.length then
        .error ⟨fieldName,
          fieldName ++ " must be less than " ++ toString schema.maxLength ++ " characters"⟩
      else if !schema.pattern trimmed then
        .error ⟨fieldName, fieldName ++ " contains invalid characters"⟩
      else
        .ok trimmed

/-- The loosely-typed decoded request body: each field may be absent (or a
non-string, also modelled by `none`). -/
structure ContactInput where
  email : Option String := none
  name : Option String := none
  phone : Option String := none
  message : Option String := none
deriving Repr, DecidableEq

/-- A fully validated submission. -/
structure ContactData where
  email : String
  name : String
  phone : String
  message : String
deriving Repr, DecidableEq

/-- `validateContactForm(data)`: fields are validated in the source order of
the object literal — email, name, phone, message — and the first throw
aborts the whole validation. -/
def validateContactForm (cfg : Config) (data : ContactInput) : Except ValidationError ContactData :=
  match validateField data.email "email" emailSchema with
  | .error err => .error err
  | .ok email =>
    match validateField data.name "name" (nameSchema cfg) with
    | .error err => .error err
    | .ok name =>
      match validateField data.phone "phone" (phoneSchema cfg) with
      | .error err => .error err
      | .ok phone =>
        match validateField data.message "message" (messageSchema cfg) with
        | .error err => .error err
        | .ok message => .ok ⟨email, name, phone, message⟩

/-- The JSON bodies the handler ever serializes, in the key order of the
source object literals; `stringifyBody` is `JSON.stringify` on them. -/
inductive BodyShape where
  | messageOnly (message : String)
  | messageSuccess (message : String)
  | errorOnly (error : String)
  | errorField (error : String) (field : String)
deriving Repr, DecidableEq

/-- `JSON.stringify` of a `BodyShape` (field contents are plain text in every
body the handler builds, so no escaping arises). -/
def stringifyBody : BodyShape → String
  | .messageOnly m => "\x7b\"message\":\"" ++ m ++ "\"\x7d"
  | .messageSuccess m => "\x7b\"message\":\"" ++ m ++ "\",\"success\":true\x7d"
  | .errorOnly e => "\x7b\"error\":\"" ++ e ++ "\"\x7d"
  | .errorField e f => "\x7b\"error\":\"" ++ e ++ "\",\"field\":\"" ++ f ++ "\"\x7d"

/-- An HTTP-shaped response `{statusCode, headers, body}` with the body
already serialized to its byte string. -/
structure Response where
  statusCode : Nat
  headers : List (String × String)
  body : String
deriving Repr, DecidableEq

/-- `createResponse(statusCode, body, additionalHeaders)`; the handler never
passes additional headers. -/
def createResponse (cfg : Config) (statusCode : Nat) (body : BodyShape)
    (additionalHeaders : List (String × String) := []) : Response :=
  { statusCode := statusCode
    headers :=
      [("Content-Type", "application/json"),
       ("Access-Control-Allow-Origin", cfg.allowedOrigin),
       ("Access-Control-Allow-Headers", "Content-Type"),
       ("Access-Control-Allow-Methods", "POST, OPTIONS")] ++ additionalHeaders
    body := stringifyBody body }

/-- The classification object produced by `classifySubmission`: on the
success path the source omits `failedOpen`, which is falsy, modelled as
`false`. -/
structure ClassificationResult where
  classification : String
  confidence : Rat
  reason : String
  failedOpen : Bool
deriving Repr, DecidableEq

/-- The `{classification, confidence, reason}` object parsed out of the
model's textual reply when every step of the `try` block succeeds. -/
structure RawClassification where
  classification : String
  confidence : Rat
  reason : String
deriving Repr, DecidableEq

/-- `classifySubmission(contactData, bedrockClient)`.  The whole `try` block
— the Bedrock invocation, decoding its response body, stripping code
fences and `JSON.parse` of the text — is modelled by its `Except` outcome:
`.ok` the parsed object, `.error` the thrown error's message.  The `catch`
branch is the fail-open fallback of the source. -/
def classifySubmission (tryOutcome : Except String RawClassification) : ClassificationResult :=
  match tryOutcome with
  | .ok r => ⟨r.classification, r.confidence, r.reason, false⟩
  | .error msg => ⟨"LEGITIMATE", 0, "Classification error: " ++ msg, true⟩

/-- The blocking test of the handler (lines 393–396):
`['SPAM','GIBBERISH'].includes(classification) && confidence >= threshold`;
`none` is the `classificationResult = null` state in which the block is
never reached. -/
def decisionBlocks : Option ClassificationResult → Rat → Bool
  | none, _ => false
  | some cr, threshold =>
    (cr.classification = "SPAM" || cr.classification = "GIBBERISH") &&
      decide (threshold ≤ cr.confidence)

/-- The transport event, reduced to the fields the handler reads:
`httpMethod`, `requestContext.http.method`, and the two source-IP
locations. -/
structure Event where
  httpMethod : Option String := none
  rcHttpMethod : Option String := none
  sourceIpHttp : Option String := none
  sourceIpIdentity : Option String := none
deriving Repr, DecidableEq

/-- The preflight test of line 333:
`event.httpMethod === 'OPTIONS' || event.requestContext?.http?.method === 'OPTIONS'`. -/
def isPreflight (e : Event) : Bool :=
  e.httpMethod = some "OPTIONS" || e.rcHttpMethod = some "OPTIONS"

/-- JavaScript `a || b` on optional strings: the empty string is falsy. -/
def jsOr (a b : Option String) : Option String :=
  match a with
  | some s => if s = "" then b else some s
  | none => b

/-- The IP extraction of `logBlockedSubmission`:
`event.requestContext?.http?.sourceIp || event.requestContext?.identity?.sourceIp || 'unknown'`. -/
def extractIp (e : Event) : String :=
  match jsOr e.sourceIpHttp (jsOr e.sourceIpIdentity (some "unknown")) with
  | some s => s
  | none => "unknown"

/-- The DynamoDB item written for a blocked submission. -/
structure BlockedRecord where
  submissionId : String
  timestamp : Nat
  ttl : Nat
  name : String
  email : String
  phone : String
  message : String
  classification : String
  confidence : Rat
  reason : String
  ipAddress : String
deriving Repr, DecidableEq

/-- The record assembled by `logBlockedSubmission`; `uuid` and `nowMs` stand
for `randomUUID()` and `Date.now()`. -/
def mkBlockedRecord (contactData : ContactData) (cr : ClassificationResult) (event : Event)
    (uuid : String) (nowMs : Nat) : BlockedRecord :=
  { submissionId := uuid
    timestamp := nowMs
    ttl := nowMs / 1000 + 90 * 24 * 60 * 60
    name := contactData.name
    email := contactData.email
    phone := contactData.phone
    message := contactData.message
    classification := cr.classification
    confidence := cr.confidence
    reason := cr.reason
    ipAddress := extractIp event }

/-- `logBlockedSubmission`: attempt the store write; on a throw, log and
return `null` (`none`) instead of propagating. -/
def logBlockedSubmission (store : BlockedRecord → Except String Unit) (record : BlockedRecord) :
    Option String :=
  match store record with
  | .ok _ => some record.submissionId
  | .error _ => none

/-- `generateSubject(message, classificationResult)`: normalize whitespace
runs to single spaces, trim, split on spaces, keep the first
`subjectWordCount` words, and append `"..."` when that prefix is shorter
than the *original* message; prefix the attention marker for SALES or
low-confidence LEGITIMATE classifications. -/
def generateSubject (cfg : Config) (message : String)
    (classificationResult : Option ClassificationResult := none) : String :=
  let words := splitOnChar ' ' (trimAux (collapseWs message.data))
  let subject := joinSpace (words.take cfg.subjectWordCount)
  let subject := if subject.length < message.data.length then subject ++ "...".data else subject
  match classificationResult with
  | none => ⟨subject⟩
  | some r =>
    if r.classification = "SALES" ||
        (r.classification = "LEGITIMATE" && decide (r.confidence < 9/10)) then
      "🤨 " ++ ⟨subject⟩
    else ⟨subject⟩

/-- Outcomes of the external calls of one invocation, injected like the test
clients of the source: the body-decode result (`.error` models a parse
throw), the classifier `try`-block outcome, the store write outcome, the
SES send outcome, plus the fresh UUID and clock reading. -/
structure Oracles where
  decode : Except Unit ContactInput
  classify : Except String RawClassification
  store : Except String Unit
  ses : Except String String
  uuid : String := "id"
  nowMs : Nat := 0
deriving Repr

/-- How many times each external interaction was attempted during one
invocation. -/
structure Effects where
  decodeCalls : Nat
  classifierCalls : Nat
  storeCalls : Nat
  emailCalls : Nat
deriving Repr, DecidableEq

/-- No external interaction at all. -/
def noEffects : Effects := ⟨0, 0, 0, 0⟩

/-- The success body shared by the blocked and the forwarded branches. -/
def thankYou : String := "Thank you for contacting us! Your message has been sent."

/-- The final send step of the handler: dispatch the email; an `.ok` yields
the 200 success response, a throw is caught by the outer handler `catch`
and yields the generic 500. -/
def sendStep (cfg : Config) (o : Oracles) (eff : Effects) : Response × Effects :=
  match o.ses with
  | .ok _ =>
    (createResponse cfg 200 (.messageSuccess thankYou), { eff with emailCalls := eff.emailCalls + 1 })
  | .error _ =>
    (createResponse cfg 500 (.errorOnly "Unable to send message. Please try again later."),
     { eff with emailCalls := eff.emailCalls + 1 })

/-- The Lambda `handler`: preflight short-circuit, body decode, validation,
optional classification and blocking decision, blocked-submission
recording, email dispatch, and the outer catch that genericizes send
failures. -/
def handler (cfg : Config) (event : Event) (o : Oracles) : Response × Effects :=
  if isPreflight event then
    (createResponse cfg 200 (.messageOnly "OK"), noEffects)
  else
    match o.decode with
    | .error _ =>
      (createResponse cfg 400 (.errorOnly "Invalid request format"),
       { noEffects with decodeCalls := 1 })
    | .ok data =>
      match validateContactForm cfg data with
      | .error err =>
        (createResponse cfg 400 (.errorField err.message err.field),
         { noEffects with decodeCalls := 1 })
      | .ok contactData =>
        if cfg.spamDetectionEnabled then
          let cr := classifySubmission o.classify
          if decisionBlocks (some cr) cfg.spamConfidenceThreshold then
            let _submissionId :=
              logBlockedSubmission (fun _ => o.store)
                (mkBlockedRecord contactData cr event o.uuid o.nowMs)
            (createResponse cfg 200 (.messageSuccess thankYou), ⟨1, 1, 1, 0⟩)
          else
            sendStep cfg o ⟨1, 1, 0, 0⟩
        else
          sendStep cfg o ⟨1, 0, 0, 0⟩

/-- Helper for `wordsSpec`: `acc` holds the (reversed) word currently being
scanned. -/
def wordsSpecAux : List Char → List Char → List (List Char)
  | acc, [] => if acc = [] then [] else [acc.reverse]
  | acc, c :: rest =>
    if isWs c then
      if acc = [] then wordsSpecAux [] rest
      else acc.reverse :: wordsSpecAux [] rest
    else wordsSpecAux (c :: acc) rest

/-- Spec-side notion of the words of a message: its maximal runs of
non-whitespace characters, in order.  This is the vocabulary of the spec's
sentence about `generateSubject` ("first N words of the message"), defined
independently of the code's normalize–trim–split pipeline. -/
def wordsSpec (l : List Char) : List (List Char) := wordsSpecAux [] l

/-! ### Sample data used by the witnesses -/

/-- A submission accepted by the validator. -/
def sampleInput : ContactInput := ⟨some "a@b.cd", some "John", some "555", some "Hi"⟩

/-- The validated form of `sampleInput`. -/
def sampleData : ContactData := ⟨"a@b.cd", "John", "555", "Hi"⟩

/-- The default configuration with spam detection switched on. -/
def enabledConfig : Config := { spamDetectionEnabled := true }

/-- A confidence of `0.95`. -/
def conf95 : Rat := Rat.mk' 19 20 (by norm_num) (by norm_num)

/-- Oracles for a run whose classifier call throws and whose email dispatch
succeeds. -/
def oraclesFailOpen : Oracles := ⟨.ok sampleInput, .error "boom", .ok (), .ok "mid", "id", 0⟩

/-- Oracles for a run classified as high-confidence SPAM. -/
def oraclesBlocked : Oracles := ⟨.ok sampleInput, .ok ⟨"SPAM", conf95, "r"⟩, .ok (), .ok "mid", "id", 0⟩

/-- Oracles for a legitimate run whose email dispatch succeeds. -/
def oraclesSent : Oracles := ⟨.ok sampleInput, .ok ⟨"LEGITIMATE", conf95, "r"⟩, .ok (), .ok "mid", "id", 0⟩

/-! ### Claims -/

/-- C9: for every event whose method is OPTIONS (via the legacy
`httpMethod` field or the nested `requestContext.http.method` field), the
handler immediately returns status 200 with body `{message:"OK"}` and
performs no further processing — no body decoding, no classification call,
no store write, no email dispatch — regardless of the event's body. -/
theorem options_preflight_short_circuit (cfg : Config) (e : Event) (o : Oracles)
    (h : isPreflight e = true) :
    handler cfg e o = (createResponse cfg 200 (.messageOnly "OK"), noEffects) := by
  simp [handler, h]

/-- Witness for C9 at a concrete OPTIONS event whose every oracle would
fail. -/
theorem options_preflight_short_circuit_witness :
    handler CONFIG ⟨some "OPTIONS", none, none, none⟩
        ⟨.error (), .error "a", .error "b", .error "c", "id", 0⟩
      = (createResponse CONFIG 200 (.messageOnly "OK"), noEffects) :=
  options_preflight_short_circuit CONFIG _ _ rfl

/-- C6: for every submission that passes validation and is forwarded, if the
email dispatch throws, the handler returns status 500 with body exactly
`{error:"Unable to send message. Please try again later."}`; the response
body is that constant string, so the thrown error's message never appears
in it. -/
theorem send_failure_returns_generic_500 (cfg : Config) (e : Event) (o : Oracles)
    (d : ContactInput) (cd : ContactData) (errMsg : String)
    (hm : isPreflight e = false) (hd : o.decode = .ok d)
    (hv : validateContactForm cfg d = .ok cd)
    (hnb : cfg.spamDetectionEnabled = false ∨
      decisionBlocks (some (classifySubmission o.classify)) cfg.spamConfidenceThreshold = false)
    (hses : o.ses = .error errMsg) :
    (handler cfg e o).1 =
      createResponse cfg 500 (.errorOnly "Unable to send message. Please try again later.") ∧
    (handler cfg e o).1.body =
      "\x7b\"error\":\"Unable to send message. Please try again later.\"\x7d" := by
  have h1 : (handler cfg e o).1 =
      createResponse cfg 500 (.errorOnly "Unable to send message. Please try again later.") := by
    rcases hnb with hnb | hnb
    · simp [handler, hm, hd, hv, hnb, sendStep, hses]
    · cases hen : cfg.spamDetectionEnabled
      · simp [handler, hm, hd, hv, hen, sendStep, hses]
      · simp [handler, hm, hd, hv, hen, hnb, sendStep, hses]
  exact ⟨h1, by rw [h1]; rfl⟩

/-- Witness for C6: spam detection disabled, dispatch throws `"boom"`. -/
theorem send_failure_returns_generic_500_witness :
    (handler CONFIG {} ⟨.ok sampleInput, .error "c", .ok (), .error "boom", "id", 0⟩).1 =
      createResponse CONFIG 500 (.errorOnly "Unable to send message. Please try again later.") ∧
    (handler CONFIG {} ⟨.ok sampleInput, .error "c", .ok (), .error "boom", "id", 0⟩).1.body =
      "\x7b\"error\":\"Unable to send message. Please try again later.\"\x7d" :=
  send_failure_returns_generic_500 CONFIG {} _ sampleInput sampleData "boom"
    rfl rfl rfl (Or.inl rfl) rfl

/-- C5: for every blocked submission, if the durable-store write throws,
`logBlockedSubmission` returns `null` (`none`) instead of propagating, and
the handler still returns the 200 success response. -/
theorem recorder_failure_swallowed (cfg : Config) (e : Event) (o : Oracles)
    (d : ContactInput) (cd : ContactData) (errMsg : String)
    (hen : cfg.spamDetectionEnabled = true) (hm : isPreflight e = false)
    (hd : o.decode = .ok d) (hv : validateContactForm cfg d = .ok cd)
    (hblock : decisionBlocks (some (classifySubmission o.classify)) cfg.spamConfidenceThreshold = true)
    (hstore : o.store = .error errMsg) :
    (∀ record, logBlockedSubmission (fun _ => o.store) record = none) ∧
    (handler cfg e o).1 = createResponse cfg 200 (.messageSuccess thankYou) := by
  constructor
  · intro record; simp [logBlockedSubmission, hstore]
  · simp [handler, hm, hd, hv, hen, hblock]

/-- Witness for C5: high-confidence SPAM with a throwing store write. -/
theorem recorder_failure_swallowed_witness :
    (logBlockedSubmission (fun _ => (⟨.ok sampleInput, .ok ⟨"SPAM", conf95, "r"⟩, .error "db down", .ok "mid", "id", 0⟩ : Oracles).store)
        (mkBlockedRecord sampleData (classifySubmission (.ok ⟨"SPAM", conf95, "r"⟩)) {} "id" 0) = none) ∧
    (handler enabledConfig {} ⟨.ok sampleInput, .ok ⟨"SPAM", conf95, "r"⟩, .error "db down", .ok "mid", "id", 0⟩).1 =
      createResponse enabledConfig 200 (.messageSuccess thankYou) :=
  ⟨(recorder_failure_swallowed enabledConfig {} _ sampleInput sampleData "db down"
      rfl rfl rfl rfl (by decide) rfl).1 _,
   (recorder_failure_swallowed enabledConfig {} _ sampleInput sampleData "db down"
      rfl rfl rfl rfl (by decide) rfl).2⟩

/-- C3: on any failure of the classifier call, `classifySubmission` returns
the fail-open fallback `{classification: LEGITIMATE, confidence: 0, reason:
"Classification error: <message>", failedOpen: true}`; every result with
`failedOpen = true` has classification LEGITIMATE and confidence 0; and the
submission is then forwarded (the email is dispatched and the success
response returned). -/
theorem classifier_failure_fails_open (msg : String) :
    classifySubmission (.error msg) =
      ⟨"LEGITIMATE", 0, "Classification error: " ++ msg, true⟩ ∧
    (∀ tryOutcome : Except String RawClassification,
      (classifySubmission tryOutcome).failedOpen = true →
      (classifySubmission tryOutcome).classification = "LEGITIMATE" ∧
      (classifySubmission tryOutcome).confidence = 0) ∧
    (∀ (cfg : Config) (e : Event) (o : Oracles) (d : ContactInput) (cd : ContactData) (mid : String),
      cfg.spamDetectionEnabled = true → isPreflight e = false →
      o.decode = .ok d → validateContactForm cfg d = .ok cd →
      o.classify = .error msg → o.ses = .ok mid →
      (handler cfg e o).1 = createResponse cfg 200 (.messageSuccess thankYou) ∧
      (handler cfg e o).2.emailCalls = 1) := by
  refine ⟨rfl, ?_, ?_⟩
  · intro t h
    cases t with
    | ok r => simp [classifySubmission] at h
    | error m => exact ⟨rfl, rfl⟩
  · intro cfg e o d cd mid hen hm hd hv hc hses
    have hnb : decisionBlocks (some (classifySubmission o.classify)) cfg.spamConfidenceThreshold = false := by
      rw [hc]; simp [classifySubmission, decisionBlocks]
    constructor
    · simp [handler, hm, hd, hv, hen, hnb, sendStep, hses]
    · simp [handler, hm, hd, hv, hen, hnb, sendStep, hses]

/-- Witness for C3: the classifier throws `"boom"`, the e-mail goes out. -/
theorem classifier_failure_fails_open_witness :
    classifySubmission (.error "boom") =
      ⟨"LEGITIMATE", 0, "Classification error: boom", true⟩ ∧
    ((classifySubmission (Except.error "boom" : Except String RawClassification)).classification = "LEGITIMATE" ∧
      (classifySubmission (Except.error "boom" : Except String RawClassification)).confidence = 0) ∧
    ((handler enabledConfig {} oraclesFailOpen).1 =
        createResponse enabledConfig 200 (.messageSuccess thankYou) ∧
      (handler enabledConfig {} oraclesFailOpen).2.emailCalls = 1) :=
  ⟨(classifier_failure_fails_open "boom").1,
   (classifier_failure_fails_open "boom").2.1 _ rfl,
   (classifier_failure_fails_open "boom").2.2 enabledConfig {} oraclesFailOpen
     sampleInput sampleData "mid" rfl rfl rfl rfl rfl rfl⟩

/-- C2: the decision policy blocks — records the submission and skips the
notifier — iff the label is SPAM or GIBBERISH and the confidence is at
least the threshold; a `null` classification (and any other combination)
forwards to the notifier. -/
theorem decision_policy_block_iff (cfg : Config) (e : Event) (o : Oracles)
    (d : ContactInput) (cd : ContactData)
    (hen : cfg.spamDetectionEnabled = true) (hm : isPreflight e = false)
    (hd : o.decode = .ok d) (hv : validateContactForm cfg d = .ok cd) :
    (∀ (cr : ClassificationResult) (t : Rat),
      decisionBlocks (some cr) t = true ↔
        ((cr.classification = "SPAM" ∨ cr.classification = "GIBBERISH") ∧ t ≤ cr.confidence)) ∧
    (∀ t : Rat, decisionBlocks none t = false) ∧
    (decisionBlocks (some (classifySubmission o.classify)) cfg.spamConfidenceThreshold = true →
      (handler cfg e o).2.storeCalls = 1 ∧ (handler cfg e o).2.emailCalls = 0) ∧
    (decisionBlocks (some (classifySubmission o.classify)) cfg.spamConfidenceThreshold = false →
      (handler cfg e o).2.emailCalls = 1 ∧ (handler cfg e o).2.storeCalls = 0) := by
  refine ⟨?_, fun t => rfl, ?_, ?_⟩
  · intro cr t
    simp [decisionBlocks, Bool.or_eq_true, Bool.and_eq_true, decide_eq_true_eq]
  · intro hb
    constructor <;> simp [handler, hm, hd, hv, hen, hb]
  · intro hb
    cases hses : o.ses <;> constructor <;>
      simp [handler, hm, hd, hv, hen, hb, sendStep, hses]

/-- Witness for C2: a 0.95-confidence SPAM run blocks (one store write, no
e-mail); a LEGITIMATE run forwards (one e-mail, no store write). -/
theorem decision_policy_block_iff_witness :
    (decisionBlocks (some ⟨"SPAM", conf95, "r", false⟩) defaultThreshold = true ↔
      ((("SPAM":String) = "SPAM" ∨ ("SPAM":String) = "GIBBERISH") ∧ defaultThreshold ≤ conf95)) ∧
    (decisionBlocks none defaultThreshold = false) ∧
    ((handler enabledConfig {} oraclesBlocked).2.storeCalls = 1 ∧
      (handler enabledConfig {} oraclesBlocked).2.emailCalls = 0) ∧
    ((handler enabledConfig {} oraclesSent).2.emailCalls = 1 ∧
      (handler enabledConfig {} oraclesSent).2.storeCalls = 0) :=
  ⟨(decision_policy_block_iff enabledConfig {} oraclesBlocked sampleInput sampleData
      rfl rfl rfl rfl).1 _ _,
   (decision_policy_block_iff enabledConfig {} oraclesBlocked sampleInput sampleData
      rfl rfl rfl rfl).2.1 _,
   (decision_policy_block_iff enabledConfig {} oraclesBlocked sampleInput sampleData
      rfl rfl rfl rfl).2.2.1 (by decide),
   (decision_policy_block_iff enabledConfig {} oraclesSent sampleInput sampleData
      rfl rfl rfl rfl).2.2.2 (by decide)⟩

/-- C1: for every submission that passes validation with classification
enabled, the response when the decision policy blocks is byte-identical —
same status, same headers, same body — to the response when the notifier
succeeds, both being the 200 success response. -/
theorem blocked_response_identical_to_sent (cfg : Config) (e e' : Event) (o o' : Oracles)
    (d d' : ContactInput) (cd cd' : ContactData) (mid : String)
    (hen : cfg.spamDetectionEnabled = true)
    (hm : isPreflight e = false) (hd : o.decode = .ok d)
    (hv : validateContactForm cfg d = .ok cd)
    (hblock : decisionBlocks (some (classifySubmission o.classify)) cfg.spamConfidenceThreshold = true)
    (hm' : isPreflight e' = false) (hd' : o'.decode = .ok d')
    (hv' : validateContactForm cfg d' = .ok cd')
    (hnb : decisionBlocks (some (classifySubmission o'.classify)) cfg.spamConfidenceThreshold = false)
    (hses : o'.ses = .ok mid) :
    (handler cfg e o).1 = (handler cfg e' o').1 ∧
    (handler cfg e o).1 = createResponse cfg 200 (.messageSuccess thankYou) := by
  have h1 : (handler cfg e o).1 = createResponse cfg 200 (.messageSuccess thankYou) := by
    simp [handler, hm, hd, hv, hen, hblock]
  have h2 : (handler cfg e' o').1 = createResponse cfg 200 (.messageSuccess thankYou) := by
    simp [handler, hm', hd', hv', hen, hnb, sendStep, hses]
  exact ⟨h1.trans h2.symm, h1⟩

/-- Witness for C1: the blocked SPAM run and the forwarded LEGITIMATE run
yield the same response object. -/
theorem blocked_response_identical_to_sent_witness :
    (handler enabledConfig {} oraclesBlocked).1 = (handler enabledConfig {} oraclesSent).1 ∧
    (handler enabledConfig {} oraclesBlocked).1 =
      createResponse enabledConfig 200 (.messageSuccess thankYou) :=
  blocked_response_identical_to_sent enabledConfig {} {} oraclesBlocked oraclesSent
    sampleInput sampleInput sampleData sampleData "mid"
    rfl rfl rfl rfl (by decide) rfl rfl rfl (by decide) rfl

/-! ### Helper lemmas about `validateField` and trimming -/

/-- Every error thrown by `validateField` is tagged with the validated
field's name. -/
theorem validateField_error_field (v : Option String) (f : String) (sch : Schema)
    (err : ValidationError) (h : validateField v f sch = .error err) : err.field = f := by
  cases v with
  | none =>
    simp only [validateField, Except.error.injEq] at h
    rw [← h]
  | some s =>
    simp only [validateField] at h
    split at h
    · simp only [Except.error.injEq] at h; rw [← h]
    · split at h
      · simp only [Except.error.injEq] at h; rw [← h]
      · split at h
        · simp only [Except.error.injEq] at h; rw [← h]
        · split at h
          · simp only [Except.error.injEq] at h; rw [← h]
          · exact absurd h (by simp)

/-- A successful `validateField` returns exactly the trimmed input. -/
theorem validateField_ok_trim (s f : String) (sch : Schema) (t : String)
    (h : validateField (some s) f sch = .ok t) : t = trim s := by
  by_cases hs : s = ""
  · rw [hs] at h; simp [validateField] at h
  · simp only [validateField, if_neg hs] at h
    split at h
    · exact absurd h (by simp)
    · split at h
      · exact absurd h (by simp)
      · split at h
        · exact absurd h (by simp)
        · simp only [Except.ok.injEq] at h; rw [← h]

/-- Dropping a satisfied prefix: `dropWhile` ignores a leading block whose
elements all satisfy the predicate. -/
theorem dropWhile_append_of_all {α} (p : α → Bool) (x t : List α) (hx : x.all p) :
    (x ++ t).dropWhile p = t.dropWhile p := by
  induction x with
  | nil => rfl
  | cons c cs ih =>
    simp only [List.all_cons, Bool.and_eq_true] at hx
    simp [List.dropWhile_cons, hx.1, ih hx.2]

/-- `dropWhile` consumes a list all of whose elements satisfy the
predicate. -/
theorem dropWhile_eq_nil_of_all {α} (p : α → Bool) (x : List α) (hx : x.all p) :
    x.dropWhile p = [] := by
  have h := dropWhile_append_of_all p x [] hx
  simpa using h

/-- Trimming is insensitive to whitespace padding on either side. -/
theorem trimAux_pad (x y l : List Char) (hx : x.all isWs) (hy : y.all isWs) :
    trimAux (x ++ l ++ y) = trimAux l := by
  unfold trimAux
  rw [List.append_assoc, dropWhile_append_of_all _ x (l ++ y) hx]
  cases h : l.dropWhile isWs with
  | nil =>
    have h2 : (l ++ y).dropWhile isWs = [] := by
      rw [List.dropWhile_append, h, if_pos (by simp)]
      exact dropWhile_eq_nil_of_all _ y hy
    rw [h2]
  | cons c t =>
    have h2 : (l ++ y).dropWhile isWs = (c :: t) ++ y := by
      rw [List.dropWhile_append, h, if_neg (by simp)]
    rw [h2, List.reverse_append,
      dropWhile_append_of_all _ y.reverse (c :: t).reverse (by rw [List.all_reverse]; exact hy)]

/-- String-level version of `trimAux_pad`. -/
theorem trim_pad (a b s : String) (ha : a.data.all isWs) (hb : b.data.all isWs) :
    trim (a ++ s ++ b) = trim s := by
  unfold trim
  congr 1
  rw [String.data_append, String.data_append]
  exact trimAux_pad a.data b.data s.data ha hb

/-- Whitespace-padding an input that `validateField` accepts does not change
the validation result. -/
theorem validateField_pad (a b s f : String) (sch : Schema)
    (ha : a.data.all isWs) (hb : b.data.all isWs)
    (h : ∃ t, validateField (some s) f sch = .ok t) :
    validateField (some (a ++ s ++ b)) f sch = validateField (some s) f sch := by
  obtain ⟨t, ht⟩ := h
  have hs : s ≠ "" := by
    intro hs; rw [hs] at ht; simp [validateField] at ht
  have hpad : a ++ s ++ b ≠ "" := by
    intro hp
    have hd : (a ++ s ++ b).data = [] := by rw [hp]
    rw [String.data_append, String.data_append] at hd
    rcases List.append_eq_nil.mp hd with ⟨h1, -⟩
    rcases List.append_eq_nil.mp h1 with ⟨-, h3⟩
    exact hs (String.ext h3)
  simp only [validateField, if_neg hs, if_neg hpad]
  rw [trim_pad a b s ha hb]

/-! ### More claims -/

/-- C4: `validateContactForm` checks email, name, phone, message in that
fixed order; the first failing field aborts validation; the resulting
`ValidationError` carries exactly that field's name and message, and the
handler surfaces it as a 400 response whose body carries both `error` and
`field`. -/
theorem validation_first_failure (cfg : Config) :
    (∀ (d : ContactInput) (err : ValidationError),
      validateField d.email "email" emailSchema = .error err →
      validateContactForm cfg d = .error err) ∧
    (∀ (d : ContactInput) (x : String) (err : ValidationError),
      validateField d.email "email" emailSchema = .ok x →
      validateField d.name "name" (nameSchema cfg) = .error err →
      validateContactForm cfg d = .error err) ∧
    (∀ (d : ContactInput) (x y : String) (err : ValidationError),
      validateField d.email "email" emailSchema = .ok x →
      validateField d.name "name" (nameSchema cfg) = .ok y →
      validateField d.phone "phone" (phoneSchema cfg) = .error err →
      validateContactForm cfg d = .error err) ∧
    (∀ (d : ContactInput) (x y z : String) (err : ValidationError),
      validateField d.email "email" emailSchema = .ok x →
      validateField d.name "name" (nameSchema cfg) = .ok y →
      validateField d.phone "phone" (phoneSchema cfg) = .ok z →
      validateField d.message "message" (messageSchema cfg) = .error err →
      validateContactForm cfg d = .error err) ∧
    (∀ (v : Option String) (f : String) (sch : Schema) (err : ValidationError),
      validateField v f sch = .error err → err.field = f) ∧
    (∀ (e : Event) (o : Oracles) (d : ContactInput) (err : ValidationError),
      isPreflight e = false → o.decode = .ok d →
      validateContactForm cfg d = .error err →
      (handler cfg e o).1 = createResponse cfg 400 (.errorField err.message err.field)) := by
  refine ⟨?_, ?_, ?_, ?_, validateField_error_field, ?_⟩
  · intro d err h; simp [validateContactForm, h]
  · intro d x err h1 h2; simp [validateContactForm, h1, h2]
  · intro d x y err h1 h2 h3; simp [validateContactForm, h1, h2, h3]
  · intro d x y z err h1 h2 h3 h4; simp [validateContactForm, h1, h2, h3, h4]
  · intro e o d err hm hd hverr
    simp [handler, hm, hd, hverr]

/-- Witness for C4: a numeric name fails second, after email passes, and the
handler returns the matching 400 body. -/
theorem validation_first_failure_witness :
    validateContactForm CONFIG ⟨some "a@b.cd", some "John123", some "555", some "Hi"⟩ =
      .error ⟨"name", "name contains invalid characters"⟩ ∧
    (handler CONFIG {}
        ⟨.ok ⟨some "a@b.cd", some "John123", some "555", some "Hi"⟩, .error "c", .ok (), .ok "m", "id", 0⟩).1 =
      createResponse CONFIG 400 (.errorField "name contains invalid characters" "name") :=
  ⟨(validation_first_failure CONFIG).2.1 _ "a@b.cd" ⟨"name", "name contains invalid characters"⟩ rfl rfl,
   (validation_first_failure CONFIG).2.2.2.2.2 {} _ _ ⟨"name", "name contains invalid characters"⟩ rfl rfl rfl⟩

/-- C10: the length check of `validateField` accepts a value whose trimmed
length is at most — in particular exactly — the configured maximum, and
rejects only values whose trimmed length is strictly greater, with the
rejection message reading "must be less than N characters". -/
theorem length_check_boundary (f : String) (sch : Schema) :
    (∀ s : String, s ≠ "" → trim s ≠ "" → (trim s).length ≤ sch.maxLength →
      sch.pattern (trim s) = true →
      validateField (some s) f sch = .ok (trim s)) ∧
    (∀ s : String, s ≠ "" → sch.maxLength < (trim s).length →
      validateField (some s) f sch =
        .error ⟨f, f ++ " must be less than " ++ toString sch.maxLength ++ " characters"⟩) := by
  constructor
  · intro s hs ht hlen hp
    have h0 : ¬ (trim s).length = 0 := by
      intro hl
      exact ht (String.ext (List.length_eq_zero.mp hl))
    have hlt : ¬ sch.maxLength < (trim s).length := Nat.not_lt.mpr hlen
    simp [validateField, hs, h0, hlt, hp]
  · intro s hs hgt
    have h0 : ¬ (trim s).length = 0 := by omega
    simp [validateField, hs, h0, hgt]

/-- Witness for C10: with `name`'s schema, a 100-character name (the exact
maximum) passes, and a 101-character name fails with the "less than 100"
message. -/
theorem length_check_boundary_witness :
    validateField (some ⟨List.replicate 100 'a'⟩) "name" (nameSchema CONFIG) =
      .ok (trim ⟨List.replicate 100 'a'⟩) ∧
    validateField (some ⟨List.replicate 101 'a'⟩) "name" (nameSchema CONFIG) =
      .error ⟨"name", "name must be less than 100 characters"⟩ :=
  ⟨(length_check_boundary "name" (nameSchema CONFIG)).1 ⟨List.replicate 100 'a'⟩
      (by decide) (by decide) (by decide) (by decide),
   (length_check_boundary "name" (nameSchema CONFIG)).2 ⟨List.replicate 101 'a'⟩
      (by decide) (by decide)⟩

/-- C8: whitespace-padding the fields of a submission the validator accepts
does not change the validation result, and the validator returns the
trimmed value of each field. -/
theorem validate_trim_pad (cfg : Config) (e n p m eL eR nL nR pL pR mL mR : String)
    (hws : eL.data.all isWs ∧ eR.data.all isWs ∧ nL.data.all isWs ∧ nR.data.all isWs ∧
           pL.data.all isWs ∧ pR.data.all isWs ∧ mL.data.all isWs ∧ mR.data.all isWs)
    (hok : ∃ cd, validateContactForm cfg ⟨some e, some n, some p, some m⟩ = .ok cd) :
    validateContactForm cfg
        ⟨some (eL ++ e ++ eR), some (nL ++ n ++ nR), some (pL ++ p ++ pR), some (mL ++ m ++ mR)⟩
      = validateContactForm cfg ⟨some e, some n, some p, some m⟩ ∧
    validateContactForm cfg ⟨some e, some n, some p, some m⟩ =
      .ok ⟨trim e, trim n, trim p, trim m⟩ := by
  obtain ⟨cd, hcd⟩ := hok
  unfold validateContactForm at hcd
  cases he : validateField (some e) "email" emailSchema with
  | error err => rw [he] at hcd; exact absurd hcd (by simp)
  | ok te =>
  rw [he] at hcd
  cases hn : validateField (some n) "name" (nameSchema cfg) with
  | error err => rw [hn] at hcd; exact absurd hcd (by simp)
  | ok tn =>
  rw [hn] at hcd
  cases hp : validateField (some p) "phone" (phoneSchema cfg) with
  | error err => rw [hp] at hcd; exact absurd hcd (by simp)
  | ok tp =>
  rw [hp] at hcd
  cases hm : validateField (some m) "message" (messageSchema cfg) with
  | error err => rw [hm] at hcd; exact absurd hcd (by simp)
  | ok tm =>
  have hE := validateField_pad eL eR e "email" emailSchema hws.1 hws.2.1 ⟨te, he⟩
  have hN := validateField_pad nL nR n "name" (nameSchema cfg) hws.2.2.1 hws.2.2.2.1 ⟨tn, hn⟩
  have hP := validateField_pad pL pR p "phone" (phoneSchema cfg) hws.2.2.2.2.1 hws.2.2.2.2.2.1 ⟨tp, hp⟩
  have hM := validateField_pad mL mR m "message" (messageSchema cfg)
    hws.2.2.2.2.2.2.1 hws.2.2.2.2.2.2.2 ⟨tm, hm⟩
  constructor
  · unfold validateContactForm
    rw [hE, hN, hP, hM]
  · unfold validateContactForm
    rw [he, hn, hp, hm,
      validateField_ok_trim e "email" emailSchema te he,
      validateField_ok_trim n "name" (nameSchema cfg) tn hn,
      validateField_ok_trim p "phone" (phoneSchema cfg) tp hp,
      validateField_ok_trim m "message" (messageSchema cfg) tm hm]

/-- Witness for C8: padding the sample submission with spaces and tabs
leaves the validation result unchanged. -/
theorem validate_trim_pad_witness :
    validateContactForm CONFIG
        ⟨some (" " ++ "a@b.cd" ++ " "), some ("" ++ "John" ++ "\t"),
         some (" " ++ "555" ++ ""), some (" " ++ "Hi" ++ " ")⟩
      = validateContactForm CONFIG ⟨some "a@b.cd", some "John", some "555", some "Hi"⟩ ∧
    validateContactForm CONFIG ⟨some "a@b.cd", some "John", some "555", some "Hi"⟩ =
      .ok ⟨trim "a@b.cd", trim "John", trim "555", trim "Hi"⟩ :=
  validate_trim_pad CONFIG "a@b.cd" "John" "555" "Hi" " " " " "" "\t" " " "" " " " "
    ⟨rfl, rfl, rfl, rfl, rfl, rfl, rfl, rfl⟩
    ⟨⟨"a@b.cd", "John", "555", "Hi"⟩, rfl⟩

/-! ### Helper lemmas for the subject-line analysis -/

/-- The head surviving `dropWhile` fails the predicate. -/
theorem dropWhile_head_false {α} (p : α → Bool) :
    ∀ (l : List α) (c : α) (rest : List α), l.dropWhile p = c :: rest → p c = false := by
  intro l
  induction l with
  | nil => intro c rest h; simp [List.dropWhile] at h
  | cons a t ih =>
    intro c rest h
    by_cases hp : p a = true
    · rw [List.dropWhile_cons, if_pos hp] at h; exact ih c rest h
    · rw [List.dropWhile_cons, if_neg hp] at h
      injection h with h1 _
      subst h1
      simpa using hp

/-- `dropWhile` never lengthens a list. -/
theorem dropWhile_length_le {α} (p : α → Bool) (l : List α) :
    (l.dropWhile p).length ≤ l.length := by
  induction l with
  | nil => simp
  | cons a t ih =>
    rw [List.dropWhile_cons]
    by_cases hp : p a = true
    · rw [if_pos hp]; exact Nat.le_succ_of_le ih
    · rw [if_neg hp]

/-- `dropWhile` is the identity on a list none of whose elements satisfy the
predicate. -/
theorem dropWhile_eq_self_of_all {α} (p : α → Bool) (l : List α)
    (h : l.all (fun c => !p c)) : l.dropWhile p = l := by
  cases l with
  | nil => rfl
  | cons a t =>
    simp only [List.all_cons, Bool.and_eq_true, Bool.not_eq_true'] at h
    rw [List.dropWhile_cons, if_neg (by simp [h.1])]

/-- If `dropWhile` consumed everything, everything satisfied the
predicate. -/
theorem all_of_dropWhile_eq_nil {α} (p : α → Bool) :
    ∀ l : List α, l.dropWhile p = [] → l.all p := by
  intro l
  induction l with
  | nil => intro _; rfl
  | cons a t ih =>
    intro h
    rw [List.dropWhile_cons] at h
    by_cases hp : p a = true
    · rw [if_pos hp] at h
      simp [List.all_cons, hp, ih h]
    · rw [if_neg hp] at h
      simp at h

/-- A nonempty whitespace-free block shields the rest from `dropWhile`. -/
theorem dropWhile_word_append (w t : List Char) (hne : w ≠ [])
    (hw : w.all (fun c => !isWs c)) : (w ++ t).dropWhile isWs = w ++ t := by
  cases w with
  | nil => exact absurd rfl hne
  | cons a w' =>
    simp only [List.all_cons, Bool.and_eq_true, Bool.not_eq_true'] at hw
    rw [List.cons_append, List.dropWhile_cons, if_neg (by simp [hw.1])]

/-- In state `true` (inside a collapsed run) a whitespace prefix is
skipped. -/
theorem collapseWsAux_true_ws_lead :
    ∀ (x t : List Char), x.all isWs → collapseWsAux true (x ++ t) = collapseWsAux true t := by
  intro x
  induction x with
  | nil => intro t _; rfl
  | cons a x' ih =>
    intro t hx
    simp only [List.all_cons, Bool.and_eq_true] at hx
    simp [collapseWsAux, hx.1, ih t hx.2]

/-- State `true` just skips the leading whitespace run. -/
theorem collapseWsAux_true_eq (t : List Char) :
    collapseWsAux true t = collapseWsAux false (t.dropWhile isWs) := by
  induction t with
  | nil => rfl
  | cons a t' ih =>
    by_cases ha : isWs a = true
    · simp [collapseWsAux, ha, List.dropWhile_cons, ih]
    · have ha' : isWs a = false := by simpa using ha
      simp [collapseWsAux, ha', List.dropWhile_cons]

/-- A whitespace-free block passes through the collapse untouched. -/
theorem collapseWsAux_false_word :
    ∀ (w t : List Char), w.all (fun c => !isWs c) →
      collapseWsAux false (w ++ t) = w ++ collapseWsAux false t := by
  intro w
  induction w with
  | nil => intro t _; rfl
  | cons a w' ih =>
    intro t hw
    simp only [List.all_cons, Bool.and_eq_true, Bool.not_eq_true'] at hw
    simp [collapseWsAux, hw.1, ih t hw.2]

/-- A nonempty leading whitespace run collapses to one space. -/
theorem collapseWsAux_false_ws_lead (x t : List Char) (hx : x.all isWs) (hne : x ≠ []) :
    collapseWsAux false (x ++ t) = ' ' :: collapseWsAux true t := by
  cases x with
  | nil => exact absurd rfl hne
  | cons a x' =>
    simp only [List.all_cons, Bool.and_eq_true] at hx
    simp [collapseWsAux, hx.1, collapseWsAux_true_ws_lead x' t hx.2]

/-- Collapsing an all-whitespace list gives at most one space. -/
theorem collapseWs_all_ws (t : List Char) (h : t.all isWs) :
    collapseWs t = if t = [] then [] else [' '] := by
  cases t with
  | nil => rfl
  | cons a t' =>
    simp only [List.all_cons, Bool.and_eq_true] at h
    have h2 : collapseWsAux true t' = [] := by
      have := collapseWsAux_true_ws_lead t' [] h.2
      simpa using this
    simp [collapseWs, collapseWsAux, h.1, h2]

/-- `wordsSpecAux` skips a leading whitespace run. -/
theorem wordsSpecAux_ws_lead :
    ∀ (x t : List Char), x.all isWs → wordsSpecAux [] (x ++ t) = wordsSpecAux [] t := by
  intro x
  induction x with
  | nil => intro t _; rfl
  | cons a x' ih =>
    intro t hx
    simp only [List.all_cons, Bool.and_eq_true] at hx
    simp [wordsSpecAux, hx.1, ih t hx.2]

/-- `wordsSpecAux` scans a whitespace-free block into the accumulator. -/
theorem wordsSpecAux_word :
    ∀ (w acc t : List Char), w.all (fun c => !isWs c) →
      wordsSpecAux acc (w ++ t) = wordsSpecAux (w.reverse ++ acc) t := by
  intro w
  induction w with
  | nil => intro acc t _; simp
  | cons a w' ih =>
    intro acc t hw
    simp only [List.all_cons, Bool.and_eq_true, Bool.not_eq_true'] at hw
    rw [List.cons_append,
      show wordsSpecAux acc (a :: (w' ++ t)) = wordsSpecAux (a :: acc) (w' ++ t) from by
        simp [wordsSpecAux, hw.1],
      ih (a :: acc) t hw.2]
    congr 1
    rw [List.reverse_cons, List.append_assoc]
    rfl

/-- At a word boundary (end of input or whitespace), a nonempty accumulator
is flushed as a completed word. -/
theorem wordsSpecAux_flush (acc t : List Char) (hacc : acc ≠ [])
    (ht : t = [] ∨ ∃ d r, t = d :: r ∧ isWs d = true) :
    wordsSpecAux acc t = acc.reverse :: wordsSpecAux [] t := by
  rcases ht with rfl | ⟨d, r, rfl, hd⟩
  · simp [wordsSpecAux, hacc]
  · simp [wordsSpecAux, hacc, hd]

/-- An all-whitespace list has no words. -/
theorem wordsSpec_all_ws (l : List Char) (h : l.all isWs) : wordsSpec l = [] := by
  have := wordsSpecAux_ws_lead l [] h
  simpa [wordsSpec] using this

/-- With a nonempty accumulator the scan produces at least one word. -/
theorem wordsSpecAux_ne_nil :
    ∀ (t acc : List Char), acc ≠ [] → wordsSpecAux acc t ≠ [] := by
  intro t
  induction t with
  | nil => intro acc hacc; simp [wordsSpecAux, hacc]
  | cons a r ih =>
    intro acc hacc
    by_cases ha : isWs a = true
    · simp [wordsSpecAux, ha, hacc]
    · have ha' : isWs a = false := by simpa using ha
      simp only [wordsSpecAux, ha', Bool.false_eq_true, if_false]
      exact ih (a :: acc) (by simp)

/-- A list that is not all whitespace has at least one word. -/
theorem wordsSpec_ne_nil (l : List Char) (h : ¬ l.all isWs = true) : wordsSpec l ≠ [] := by
  induction l with
  | nil => simp at h
  | cons a r ih =>
    by_cases ha : isWs a = true
    · have h2 : ¬ r.all isWs = true := by
        intro hr; exact h (by simp [List.all_cons, ha, hr])
      have he : wordsSpec (a :: r) = wordsSpec r := by
        simp [wordsSpec, wordsSpecAux, ha]
      rw [he]; exact ih h2
    · have ha' : isWs a = false := by simpa using ha
      have he : wordsSpec (a :: r) = wordsSpecAux [a] r := by
        simp [wordsSpec, wordsSpecAux, ha']
      rw [he]
      exact wordsSpecAux_ne_nil r [a] (by simp)

/-- Every word produced by the scan is nonempty and whitespace-free. -/
theorem wordsSpecAux_good :
    ∀ (t acc : List Char), acc.all (fun c => !isWs c) →
      ∀ w ∈ wordsSpecAux acc t, w ≠ [] ∧ w.all (fun c => !isWs c) := by
  intro t
  induction t with
  | nil =>
    intro acc hacc w hw
    by_cases h : acc = []
    · simp [wordsSpecAux, h] at hw
    · simp only [wordsSpecAux, if_neg h, List.mem_singleton] at hw
      subst hw
      exact ⟨by simpa [List.reverse_eq_nil_iff] using h, by rwa [List.all_reverse]⟩
  | cons a r ih =>
    intro acc hacc w hw
    by_cases ha : isWs a = true
    · by_cases h : acc = []
      · rw [show wordsSpecAux acc (a :: r) = wordsSpecAux [] r from by
          simp [wordsSpecAux, ha, h]] at hw
        exact ih [] (by simp) w hw
      · rw [show wordsSpecAux acc (a :: r) = acc.reverse :: wordsSpecAux [] r from by
          simp [wordsSpecAux, ha, h]] at hw
        rcases List.mem_cons.mp hw with rfl | hw'
        · exact ⟨by simpa [List.reverse_eq_nil_iff] using h, by rwa [List.all_reverse]⟩
        · exact ih [] (by simp) w hw'
    · have ha' : isWs a = false := by simpa using ha
      rw [show wordsSpecAux acc (a :: r) = wordsSpecAux (a :: acc) r from by
        simp [wordsSpecAux, ha']] at hw
      exact ih (a :: acc) (by simp [List.all_cons, ha', hacc]) w hw

/-- `splitOnChar` always yields at least one (possibly empty) field. -/
theorem splitOnChar_ne_nil (sep : Char) : ∀ t : List Char, splitOnChar sep t ≠ [] := by
  intro t
  induction t with
  | nil => simp [splitOnChar]
  | cons a r ih =>
    by_cases ha : a = sep
    · simp [splitOnChar, ha]
    · simp only [splitOnChar, if_neg ha]
      cases h : splitOnChar sep r with
      | nil => simp
      | cons w ws => simp

/-- A whitespace-free prefix is absorbed into the first field of the
split. -/
theorem splitOnChar_word_lead :
    ∀ (w t h : List Char) (ts : List (List Char)), w.all (fun c => !isWs c) →
      splitOnChar ' ' t = h :: ts → splitOnChar ' ' (w ++ t) = (w ++ h) :: ts := by
  intro w
  induction w with
  | nil => intro t h ts _ ht; simpa using ht
  | cons a w' ih =>
    intro t h ts hw ht
    simp only [List.all_cons, Bool.and_eq_true, Bool.not_eq_true'] at hw
    have ha : ¬ (a = ' ') := by
      intro h'
      rw [h'] at hw
      exact absurd hw.1 (by simp [isWs])
    rw [List.cons_append]
    simp only [splitOnChar, if_neg ha]
    rw [ih t h ts hw.2 ht]
    rfl

/-- Splitting the single-space join of nonempty space-free words recovers
them. -/
theorem splitOnChar_joinSpace :
    ∀ ws : List (List Char), ws ≠ [] →
      (∀ w ∈ ws, w ≠ [] ∧ w.all (fun c => !isWs c)) →
      splitOnChar ' ' (joinSpace ws) = ws := by
  intro ws
  induction ws with
  | nil => intro h; exact absurd rfl h
  | cons w ws' ih =>
    intro _ hgood
    cases ws' with
    | nil =>
      have h := splitOnChar_word_lead w [] [] [] (hgood w (by simp)).2 rfl
      simpa [joinSpace] using h
    | cons w2 ws'' =>
      have hj : joinSpace (w :: w2 :: ws'') = w ++ (' ' :: joinSpace (w2 :: ws'')) := rfl
      have h2 : splitOnChar ' ' (' ' :: joinSpace (w2 :: ws''))
          = [] :: splitOnChar ' ' (joinSpace (w2 :: ws'')) := by
        simp [splitOnChar]
      rw [hj,
        splitOnChar_word_lead w (' ' :: joinSpace (w2 :: ws'')) []
          (splitOnChar ' ' (joinSpace (w2 :: ws''))) (hgood w (by simp)).2 h2,
        ih (by simp) (fun x hx => hgood x (by simp [hx]))]
      simp

/-- Joining after a cons with a nonempty tail inserts one space. -/
theorem joinSpace_cons (w : List Char) (ws : List (List Char)) (h : ws ≠ []) :
    joinSpace (w :: ws) = w ++ ' ' :: joinSpace ws := by
  cases ws with
  | nil => exact absurd rfl h
  | cons a t => rfl

/-- Taking any number of fields from the degenerate split `[[]]` joins to
the empty list. -/
theorem joinSpace_take_single_empty (N : Nat) :
    joinSpace (([[]] : List (List Char)).take N) = [] := by
  cases N with
  | zero => rfl
  | succ n => simp [List.take_succ_cons, List.take_nil, joinSpace]

/-- Right-trimming distributes over a leading whitespace-free block. -/
theorem rdrop_word_append (w C : List Char) (hw : w.all (fun c => !isWs c)) :
    ((w ++ C).reverse.dropWhile isWs).reverse
      = w ++ (C.reverse.dropWhile isWs).reverse := by
  rw [List.reverse_append, List.dropWhile_append]
  by_cases h : (C.reverse.dropWhile isWs).isEmpty = true
  · rw [if_pos h]
    have hC : C.reverse.dropWhile isWs = [] := by simpa [List.isEmpty_iff] using h
    rw [hC, dropWhile_eq_self_of_all isWs w.reverse (by rwa [List.all_reverse]),
      List.reverse_reverse]
    simp
  · rw [if_neg h, List.reverse_append, List.reverse_reverse]

/-- Normalizing whitespace runs and trimming yields exactly the words of the
input joined by single spaces (length-bounded induction). -/
theorem trimAux_collapseWs_bounded :
    ∀ (n : Nat) (l : List Char), l.length ≤ n →
      trimAux (collapseWs l) = joinSpace (wordsSpec l) := by
  intro n
  induction n with
  | zero =>
    intro l hl
    have h : l = [] := List.length_eq_zero.mp (Nat.le_zero.mp hl)
    subst h; rfl
  | succ n ih =>
    intro l hl
    by_cases hall : l.all isWs = true
    · rw [wordsSpec_all_ws l hall, collapseWs_all_ws l hall]
      by_cases hnil : l = []
      · rw [if_pos hnil]; rfl
      · rw [if_neg hnil]; rfl
    · cases hdw : l.dropWhile isWs with
      | nil => exact absurd (all_of_dropWhile_eq_nil isWs l hdw) hall
      | cons c rest =>
        have hc : isWs c = false := dropWhile_head_false isWs l c rest hdw
        set w : List Char := c :: rest.takeWhile (fun x => !isWs x) with hw_def
        set r' : List Char := rest.dropWhile (fun x => !isWs x) with hr_def
        have hwne : w ≠ [] := by rw [hw_def]; simp
        have hwall : w.all (fun x => !isWs x) := by
          rw [hw_def]
          simp only [List.all_cons, Bool.and_eq_true, Bool.not_eq_true']
          refine ⟨hc, ?_⟩
          rw [List.all_eq_true]
          intro x hx
          have h2 := List.mem_takeWhile_imp hx
          simpa using h2
        have hwr : l.dropWhile isWs = w ++ r' := by
          rw [hdw, hw_def, hr_def, List.cons_append, List.takeWhile_append_dropWhile]
        have hxall : (l.takeWhile isWs).all isWs := by
          rw [List.all_eq_true]
          intro x hx
          exact List.mem_takeWhile_imp hx
        have hl_decomp : l = l.takeWhile isWs ++ (w ++ r') := by
          conv_lhs => rw [← List.takeWhile_append_dropWhile isWs l]
          rw [hwr]
        have hr'shape : r' = [] ∨ ∃ d r'', r' = d :: r'' ∧ isWs d = true := by
          rw [hr_def]
          cases h : rest.dropWhile (fun x => !isWs x) with
          | nil => exact Or.inl rfl
          | cons d r'' =>
            refine Or.inr ⟨d, r'', rfl, ?_⟩
            have hh := dropWhile_head_false _ rest d r'' h
            simpa using hh
        have hws : wordsSpec l = w :: wordsSpec r' := by
          conv_lhs => rw [hl_decomp]
          unfold wordsSpec
          rw [wordsSpecAux_ws_lead _ _ hxall,
            wordsSpecAux_word w [] r' hwall,
            List.append_nil]
          rw [wordsSpecAux_flush w.reverse r' (by simp [List.reverse_eq_nil_iff, hwne]) hr'shape,
            List.reverse_reverse]
        have hcol : (collapseWs l).dropWhile isWs = w ++ collapseWs r' := by
          conv_lhs => rw [hl_decomp]
          unfold collapseWs
          by_cases hx : l.takeWhile isWs = []
          · rw [hx, List.nil_append, collapseWsAux_false_word w r' hwall,
              dropWhile_word_append w _ hwne hwall]
          · rw [collapseWsAux_false_ws_lead _ _ hxall hx, collapseWsAux_true_eq,
              dropWhile_word_append w r' hwne hwall,
              collapseWsAux_false_word w r' hwall,
              List.dropWhile_cons, if_pos (by simp [isWs]),
              dropWhile_word_append w _ hwne hwall]
        have htr : trimAux (collapseWs l)
            = w ++ ((collapseWs r').reverse.dropWhile isWs).reverse := by
          unfold trimAux
          rw [hcol, rdrop_word_append w (collapseWs r') hwall]
        by_cases hr'all : r'.all isWs = true
        · have hwsr : wordsSpec r' = [] := wordsSpec_all_ws r' hr'all
          have hC := collapseWs_all_ws r' hr'all
          have hrd : ((collapseWs r').reverse.dropWhile isWs).reverse = [] := by
            by_cases h : r' = []
            · rw [hC, if_pos h]; rfl
            · rw [hC, if_neg h]; rfl
          rw [htr, hrd, hws, hwsr]
          simp [joinSpace]
        · obtain ⟨d, r'', hr'eq, hd⟩ : ∃ d r'', r' = d :: r'' ∧ isWs d = true := by
            rcases hr'shape with h | h
            · rw [h] at hr'all; simp at hr'all
            · exact h
          have hlen : r'.length ≤ n := by
            have h1 : (c :: rest).length ≤ l.length := by
              rw [← hdw]; exact dropWhile_length_le isWs l
            have h2 : r'.length ≤ rest.length := by
              rw [hr_def]; exact dropWhile_length_le _ rest
            simp only [List.length_cons] at h1
            omega
          have hih := ih r' hlen
          have hr''ne : r''.dropWhile isWs ≠ [] := by
            intro h
            have hall'' := all_of_dropWhile_eq_nil isWs r'' h
            apply hr'all
            rw [hr'eq]
            simp [List.all_cons, hd, hall'']
          obtain ⟨e, t'', he⟩ : ∃ e t'', r''.dropWhile isWs = e :: t'' := by
            cases h : r''.dropWhile isWs with
            | nil => exact absurd h hr''ne
            | cons e t'' => exact ⟨e, t'', rfl⟩
          have hef : isWs e = false := dropWhile_head_false isWs r'' e t'' he
          have hCshape : collapseWs r' = ' ' :: (e :: collapseWsAux false t'') := by
            rw [hr'eq]
            unfold collapseWs
            rw [show collapseWsAux false (d :: r'') = ' ' :: collapseWsAux true r'' from by
              simp [collapseWsAux, hd]]
            rw [collapseWsAux_true_eq r'', he]
            rw [show collapseWsAux false (e :: t'') = e :: collapseWsAux false t'' from by
              simp [collapseWsAux, hef]]
          have hrd : ((collapseWs r').reverse.dropWhile isWs).reverse
              = ' ' :: trimAux (collapseWs r') := by
            rw [hCshape]
            rw [List.reverse_cons, List.dropWhile_append]
            have hne2 : ((e :: collapseWsAux false t'').reverse.dropWhile isWs) ≠ [] := by
              intro hcontra
              have hall2 := all_of_dropWhile_eq_nil isWs _ hcontra
              rw [List.all_reverse] at hall2
              simp [List.all_cons, hef] at hall2
            rw [if_neg (by simpa [List.isEmpty_iff] using hne2)]
            rw [List.reverse_append]
            unfold trimAux
            rw [List.dropWhile_cons, if_pos (by simp [isWs]),
              List.dropWhile_cons, if_neg (by simp [hef])]
            simp
          have hwsne : wordsSpec r' ≠ [] := wordsSpec_ne_nil r' hr'all
          rw [htr, hrd, hih, hws, joinSpace_cons w (wordsSpec r') hwsne]

/-- Normalized-and-trimmed text is the single-space join of the words. -/
theorem trimAux_collapseWs_eq (l : List Char) :
    trimAux (collapseWs l) = joinSpace (wordsSpec l) :=
  trimAux_collapseWs_bounded l.length l (Nat.le_refl _)

/-- Counterexample for C7: for the message `"a  b"` the eight-word prefix
equals the whole normalized message (`"a b"`), so the claim's "trailing
ellipsis iff the prefix is shorter than the normalized message" predicts no
ellipsis — but `generateSubject` compares against the length of the
*original* message (4 characters) and returns `"a b..."`. -/
theorem generateSubject_ellipsis_counterexample :
    trim ⟨collapseWs "a  b".data⟩ = "a b" ∧
    joinSpace ((wordsSpec "a  b".data).take CONFIG.subjectWordCount) = "a b".data ∧
    generateSubject CONFIG "a  b" none = "a b..." ∧
    generateSubject CONFIG "a  b" none ≠ "a b" := by
  refine ⟨rfl, rfl, rfl, by decide⟩

/-- C7 (amended): `generateSubject` returns the first N (default 8) words of
the message — its maximal whitespace-free runs — joined by single spaces
(equivalently, the word prefix of the whitespace-normalized, trimmed
message), with a trailing `"..."` appended iff that prefix is shorter than
the **original** message. -/
theorem generateSubject_first_words (cfg : Config) (msg : String) :
    generateSubject cfg msg none =
      ⟨let sub := joinSpace ((wordsSpec msg.data).take cfg.subjectWordCount)
       if sub.length < msg.data.length then sub ++ "...".data else sub⟩ := by
  have key : joinSpace ((splitOnChar ' ' (trimAux (collapseWs msg.data))).take cfg.subjectWordCount)
      = joinSpace ((wordsSpec msg.data).take cfg.subjectWordCount) := by
    by_cases hall : msg.data.all isWs = true
    · rw [trimAux_collapseWs_eq, wordsSpec_all_ws _ hall]
      rw [show splitOnChar ' ' (joinSpace []) = [[]] from rfl, joinSpace_take_single_empty]
      simp [List.take_nil, joinSpace]
    · rw [trimAux_collapseWs_eq,
        splitOnChar_joinSpace (wordsSpec msg.data) (wordsSpec_ne_nil _ hall)
          (wordsSpecAux_good msg.data [] (by simp))]
  simp only [generateSubject]
  rw [key]

end ContactForm
